import Mathlib

/-!
Verification of the visual-metrics and detection-fusion pipeline of
`backend/app/core/image_processor.py` (thumbnail analyzer).

The Python source is shallowly embedded:

* Images are a width/height pair plus an RGB pixel function (`Img`).
* Python dicts (the detection elements) are association lists of `String × Val`
  where `Val` covers the value shapes that occur (null / string / rational /
  list of integers); Python dict lookup and assignment become `dget` / `dset`.
* `float` arithmetic is modelled by exact rationals.  Because Mathlib's field
  operations on `ℚ` do not reduce inside the kernel, the embedded code builds
  every rational with `Rat.divInt` / `mkRat` on `.num`/`.den` projections
  (`qadd`, `qsub`, `qmul`, `qdiv` below); bridge lemmas prove these equal the
  ordinary `ℚ` operations, so concrete runs evaluate by `decide` while the
  general theorems use ordinary field reasoning.
* `cv2`'s RGB→GRAY conversion is the documented fixed-point formula
  `(4899·R + 9617·G + 1868·B + 8192) >> 14`, embedded exactly.
* External collaborators that are not part of this repository (PIL decoding,
  `cv2.resize`, sklearn `KMeans`, `np.std`'s floating square root, Tesseract
  OCR, JPEG re-encoding) are oracle fields of the `Ext` structure: the
  pipeline is a function of the image, the detection list and those oracles.
* Python `int(x)` on a float quotient truncates toward zero: `Int.tdiv`.
* Python `round(x, 3)` is round-half-to-even at 3 decimals: `round3`.
-/

namespace Thumb

/-- Values stored in a detection dict: `None`, strings, numbers (modelled as
exact rationals), and integer lists (bounding boxes). -/
inductive Val where
  | null : Val
  | str (s : String) : Val
  | rat (q : ℚ) : Val
  | intList (l : List ℤ) : Val
deriving DecidableEq, Repr

/-- A Python dict with `String` keys, as an association list (first hit wins,
mirroring unique-key Python dicts). -/
abbrev Dict : Type := List (String × Val)

/-- Lookup `d[k]` returning `none` when the key is absent (`k in d` is
`(dget d k).isSome`). -/
def dget : Dict → String → Option Val
  | [], _ => none
  | p :: ps, k => if p.1 = k then some p.2 else dget ps k

/-- Python dict assignment `d[k] = v`: replace the value in place if the key
exists (keys are unique in a Python dict, so replacing the first hit is
exact), otherwise append the pair — insertion order is preserved either
way. -/
def dset : Dict → String → Val → Dict
  | [], k, v => [(k, v)]
  | p :: ps, k, v => if p.1 = k then (k, v) :: ps else p :: dset ps k v

/-- An RGB pixel, each channel a `0..255` sample. -/
abbrev RGB : Type := ℕ × ℕ × ℕ

/-- A decoded image: width, height and the pixel grid (row `y`, column `x`). -/
structure Img where
  w : ℕ
  h : ℕ
  pix : ℕ → ℕ → RGB

/-! ### Kernel-computable rational arithmetic

`Rat.divInt` and comparisons reduce in the kernel; `+`, `-`, `*`, `/` on `ℚ`
do not.  The embedded code therefore uses the following wrappers, and the
bridge lemmas below restore the field operations for proofs. -/

/-- Addition `a + b` on `ℚ`, kernel-computable. -/
def qadd (a b : ℚ) : ℚ := Rat.divInt (a.num * b.den + b.num * a.den) (a.den * b.den)

/-- Subtraction `a - b` on `ℚ`, kernel-computable. -/
def qsub (a b : ℚ) : ℚ := Rat.divInt (a.num * b.den - b.num * a.den) (a.den * b.den)

/-- Multiplication `a * b` on `ℚ`, kernel-computable. -/
def qmul (a b : ℚ) : ℚ := Rat.divInt (a.num * b.num) (a.den * b.den)

/-- Division `a / b` on `ℚ`, kernel-computable. -/
def qdiv (a b : ℚ) : ℚ := Rat.divInt (a.num * b.den) (a.den * b.num)

/-! ### String utilities (`label.lower()`, `keyword in label`)

Core `String.toLower` and friends recurse on byte positions and do not reduce
in the kernel, so the embedding works on the underlying character lists. -/

/-- Python `label.lower()`. -/
def lowerStr (s : String) : String := ⟨s.data.map Char.toLower⟩

/-- Python `needle in hay` for character lists (Python substring containment). -/
def hasSub (hay needle : List Char) : Bool :=
  match hay with
  | [] => needle.isEmpty
  | _ :: rest => needle.isPrefixOf hay || hasSub rest needle

/-- Python `needle in hay` on strings. -/
def strContains (hay needle : String) : Bool := hasSub hay.data needle.data

/-! ### Element classifier (`is_text_element`, `is_face_element`,
`classify_element_type`) -/

/-- Source `is_text_element`: the label contains one of the text keywords
(case-insensitive). -/
def is_text_element (label : String) : Bool :=
  ["text", "caption", "title", "subtitle", "overlay", "word", "letter"].any
    (fun k => strContains (lowerStr label) k)

/-- Source `is_face_element`: the label contains one of the face keywords
(case-insensitive). -/
def is_face_element (label : String) : Bool :=
  ["face", "person", "human", "head", "portrait"].any
    (fun k => strContains (lowerStr label) k)

/-- Source `classify_element_type` (the legacy wrapper at the end of the module):
note that it tests the FACE keywords first, then the text keywords. -/
def classify_element_type (label : String) : String :=
  if is_face_element label then "face"
  else if is_text_element label then "text"
  else "object"

/-! ### Position bucketing (`calculate_face_position`) -/

/-- Source `calculate_face_position`: 3×3 bucket of the bbox centre in the
0–1000 normalized space.  Out-of-range indices of the Python list would raise;
`getD _ 0` is only exercised on 4-element boxes. -/
def calculate_face_position (bbox : List ℤ) : String :=
  let cx : ℚ := mkRat (bbox.getD 0 0 + bbox.getD 2 0) 2
  let cy : ℚ := mkRat (bbox.getD 1 0 + bbox.getD 3 0) 2
  let hp : String := if cx < 333 then "left" else if cx < 666 then "center" else "right"
  let vp : String := if cy < 333 then "top" else if cy < 666 then "center" else "bottom"
  if vp = "center" && hp = "center" then "center"
  else if vp = "center" then "center-" ++ hp
  else if hp = "center" then vp ++ "-center"
  else vp ++ "-" ++ hp

/-! ### Grayscale, denormalization, Python rounding -/

/-- Denormalization `int(n * dim / 1000)`: Python float true division then `int()`
truncation toward zero. -/
def denorm (n : ℤ) (dim : ℤ) : ℤ := Int.tdiv (n * dim) 1000

/-- Conversion `cv2.COLOR_RGB2GRAY`, the exact fixed-point formula
`(4899·R + 9617·G + 1868·B + 8192) >> 14` producing a `uint8` sample. -/
def cvtGrayPix (p : RGB) : ℕ := (4899 * p.1 + 9617 * p.2.1 + 1868 * p.2.2 + 8192) / 16384

/-- Grayscale sample of the image at row `y`, column `x`. -/
def grayAt (img : Img) (y x : ℕ) : ℕ := cvtGrayPix (img.pix y x)

/-- Sum of a list of naturals (kernel-computable). -/
def sumList (l : List ℕ) : ℕ := l.foldr (· + ·) 0

/-- Sum of the grayscale samples over the rectangle `[x1,x2) × [y1,y2)`
(the NumPy slice `gray[y1:y2, x1:x2]`). -/
def regionGraySum (img : Img) (x1 y1 x2 y2 : ℕ) : ℕ :=
  sumList ((List.range (y2 - y1)).map (fun dy =>
    sumList ((List.range (x2 - x1)).map (fun dx => grayAt img (y1 + dy) (x1 + dx)))))

/-- Sum of the grayscale samples over the whole image with the rectangle
masked out (the NumPy boolean mask `bg_mask`). -/
def maskGraySum (img : Img) (x1 y1 x2 y2 : ℕ) : ℕ :=
  sumList ((List.range img.h).map (fun y =>
    sumList ((List.range img.w).map (fun x =>
      if x1 ≤ x ∧ x < x2 ∧ y1 ≤ y ∧ y < y2 then 0 else grayAt img y x))))

/-- Round half to even (Python `round`'s banker rounding), on an exact
rational.  `q.num / q.den` is `⌊q⌋` (`Rat.floor_def`); the fractional part is
compared with `1/2` through `2·den·(q − ⌊q⌋)` versus `den`. -/
def rhalfeven (q : ℚ) : ℤ :=
  let f : ℤ := q.num / (q.den : ℤ)
  let r2 : ℤ := 2 * (q.num - f * (q.den : ℤ))
  if r2 < (q.den : ℤ) then f
  else if (q.den : ℤ) < r2 then f + 1
  else if f % 2 = 0 then f else f + 1

/-- Python `round(x, 3)`. -/
def round3 (q : ℚ) : ℚ := mkRat (rhalfeven (qmul q 1000)) 1000

/-! ### Per-element contrast (`calculate_object_contrast`) -/

/-- The denormalize-and-clamp prologue of `calculate_object_contrast`:
`x1,y1` are clamped into the image, then `x2 = max(x1+1, min(x2, w))` and
`y2 = max(y1+1, min(y2, h))`. -/
def clampBox (w h : ℕ) (bbox : List ℤ) : ℤ × ℤ × ℤ × ℤ :=
  let x1 := max 0 (min (denorm (bbox.getD 0 0) (w : ℤ)) ((w : ℤ) - 1))
  let y1 := max 0 (min (denorm (bbox.getD 1 0) (h : ℤ)) ((h : ℤ) - 1))
  let x2 := max (x1 + 1) (min (denorm (bbox.getD 2 0) (w : ℤ)) (w : ℤ))
  let y2 := max (y1 + 1) (min (denorm (bbox.getD 3 0) (h : ℤ)) (h : ℤ))
  (x1, y1, x2, y2)

/-- Pixel count of the clamped object region (`object_region.size`). -/
def areaOf (w h : ℕ) (bbox : List ℤ) : ℕ :=
  let c := clampBox w h bbox
  (c.2.2.1.toNat - c.1.toNat) * (c.2.2.2.toNat - c.2.1.toNat)

/-- Pixel count of the background mask (`bg_pixels.size`). -/
def bgCountOf (img : Img) (bbox : List ℤ) : ℕ := img.w * img.h - areaOf img.w img.h bbox

/-- Grayscale sum of the clamped object region. -/
def interiorSum (img : Img) (bbox : List ℤ) : ℕ :=
  let c := clampBox img.w img.h bbox
  regionGraySum img c.1.toNat c.2.1.toNat c.2.2.1.toNat c.2.2.2.toNat

/-- Grayscale sum of the masked background. -/
def exteriorSum (img : Img) (bbox : List ℤ) : ℕ :=
  let c := clampBox img.w img.h bbox
  maskGraySum img c.1.toNat c.2.1.toNat c.2.2.1.toNat c.2.2.2.toNat

/-- Body of `calculate_object_contrast` after the degeneracy guard:
means of the object region and of the masked background, then
`round(min(1.0, abs(object_mean - bg_mean) / 255.0 * 2.5), 3)`. -/
def contrastMain (img : Img) (bbox : List ℤ) : ℚ :=
  let area := areaOf img.w img.h bbox
  if area = 0 then mkRat 1 2
  else
    let objMean : ℚ := mkRat (interiorSum img bbox) area
    let bgCount := bgCountOf img bbox
    if bgCount = 0 then mkRat 1 2
    else
      let bgMean : ℚ := mkRat (exteriorSum img bbox) bgCount
      let contrast : ℚ := qdiv |qsub objMean bgMean| 255
      let scaled : ℚ := min 1 (qmul contrast (mkRat 5 2))
      round3 scaled

/-- Source `calculate_object_contrast`: clamp, guard against a degenerate clamped box
(returning the neutral `0.5`), then the main computation. -/
def calculate_object_contrast (img : Img) (bbox : List ℤ) : ℚ :=
  let c := clampBox img.w img.h bbox
  if c.2.2.1 ≤ c.1 ∨ c.2.2.2 ≤ c.2.1 then mkRat 1 2
  else contrastMain img bbox

/-! ### Text-region aggregation (`crop_and_extract_text`) -/

/-- Running aggregate of the text-box union: the four extrema plus the
`valid_boxes_found` flag. -/
structure Agg where
  minx : ℤ
  miny : ℤ
  maxx : ℤ
  maxy : ℤ
  found : Bool
deriving DecidableEq, Repr

/-- The per-block validity checks of the aggregation loop: the block must
carry a `bbox_normalized` key holding a 4-element list whose denormalized
box has positive extent (`x1 < x2` and `y1 < y2`); the denormalized box is
returned, otherwise the loop `continue`s (`none`). -/
def validBoxOf (w h : ℕ) (block : Dict) : Option (ℤ × ℤ × ℤ × ℤ) :=
  match dget block "bbox_normalized" with
  | some (Val.intList box) =>
    if box.length = 4 then
      let x1 := denorm (box.getD 0 0) (w : ℤ)
      let y1 := denorm (box.getD 1 0) (h : ℤ)
      let x2 := denorm (box.getD 2 0) (w : ℤ)
      let y2 := denorm (box.getD 3 0) (h : ℤ)
      if x2 ≤ x1 ∨ y2 ≤ y1 then none else some (x1, y1, x2, y2)
    else none
  | _ => none

/-- The denormalized valid boxes of a block list, in order. -/
def validBoxes (w h : ℕ) (blocks : List Dict) : List (ℤ × ℤ × ℤ × ℤ) :=
  blocks.filterMap (validBoxOf w h)

/-- One iteration of the aggregation loop. -/
def stepAgg (w h : ℕ) (a : Agg) (block : Dict) : Agg :=
  match validBoxOf w h block with
  | some (x1, y1, x2, y2) => ⟨min a.minx x1, min a.miny y1, max a.maxx x2, max a.maxy y2, true⟩
  | none => a

/-- The crop rectangle computed by `crop_and_extract_text`: running min/max
union of the valid boxes starting from `(w, h, 0, 0)`, then the fixed 15px
buffer clamped to the image, `none` when no valid box was found or the
buffered rectangle is degenerate. -/
def aggregateRect (w h : ℕ) (blocks : List Dict) : Option (ℤ × ℤ × ℤ × ℤ) :=
  let a := blocks.foldl (stepAgg w h) ⟨(w : ℤ), (h : ℤ), 0, 0, false⟩
  if !a.found then none
  else
    let fx1 := max 0 (a.minx - 15)
    let fy1 := max 0 (a.miny - 15)
    let fx2 := min (w : ℤ) (a.maxx + 15)
    let fy2 := min (h : ℤ) (a.maxy + 15)
    if fx2 ≤ fx1 ∨ fy2 ≤ fy1 then none
    else some (fx1, fy1, fx2, fy2)

/-- The NumPy slice `img_array[y1:y2, x1:x2]` as an image. -/
def subImage (img : Img) (x1 y1 x2 y2 : ℕ) : Img :=
  ⟨x2 - x1, y2 - y1, fun y x => img.pix (y1 + y) (x1 + x)⟩

/-- Result record of `crop_and_extract_text`. -/
structure TextData where
  text_content : String
  word_count : ℕ
  cropped_image_bytes : List ℕ
deriving DecidableEq, Repr

/-- The empty-text sentinel result. -/
def sentinelText : TextData := ⟨"None", 0, []⟩

/-- External collaborators of the pipeline, not part of this repository:
PIL image decoding, `cv2.resize` to 100×100 (already flattened to a pixel
list), sklearn `KMeans.fit` (pixels, `n_clusters`, `random_state` ↦ cluster
centres), Tesseract OCR on the preprocessed crop (the Otsu binarization is
folded into this oracle), JPEG re-encoding, and the floating-point square
root inside `np.std`. -/
structure Ext where
  decode : List ℕ → Option Img
  resize100 : Img → List RGB
  kmeans : List RGB → ℕ → ℕ → List (ℚ × ℚ × ℚ)
  ocr : Img → String
  encodeJpeg : Img → List ℕ
  sqrtq : ℚ → ℚ

/-- Python `str.strip()` on the character list. -/
def trimChars (l : List Char) : List Char :=
  ((l.dropWhile Char.isWhitespace).reverse.dropWhile Char.isWhitespace).reverse

/-- Python `str.strip()`. -/
def pyStrip (s : String) : String := ⟨trimChars s.data⟩

/-- Python `str.split()` splitting on whitespace runs and dropping empty pieces;
accumulates the current word reversed. -/
def wordsAux : List Char → List Char → List (List Char)
  | [], cur => if cur.isEmpty then [] else [cur.reverse]
  | c :: rest, cur =>
    if c.isWhitespace then
      if cur.isEmpty then wordsAux rest [] else cur.reverse :: wordsAux rest []
    else wordsAux rest (c :: cur)

/-- Python `len(text.split())`. -/
def pyWordCount (s : String) : ℕ := (wordsAux s.data []).length

/-- Source `crop_and_extract_text`: defensive empty check, box aggregation, buffer
and clamp, then crop + OCR.  The OCR call and JPEG re-encoding are the
`Ext` oracles; the `try/except` around them cannot fire in this total
model. -/
def crop_and_extract_text (ext : Ext) (img : Img) (blocks : List Dict) : TextData :=
  if blocks.isEmpty then sentinelText
  else
    match aggregateRect img.w img.h blocks with
    | none => sentinelText
    | some (fx1, fy1, fx2, fy2) =>
      let crop := subImage img fx1.toNat fy1.toNat fx2.toNat fy2.toNat
      if crop.w * crop.h = 0 then sentinelText
      else
        let text := pyStrip (ext.ocr crop)
        let wc := if text = "" then 0 else pyWordCount text
        ⟨if text = "" then "None" else text, wc, ext.encodeJpeg crop⟩

/-! ### Dominant colors (`extract_dominant_colors`) -/

/-- NumPy `astype(int)`: truncation toward zero (`q.num / q.den` is `⌊q⌋`
for nonnegative `q` since `Int` division by a positive denominator is floor
division). -/
def pyint (q : ℚ) : ℤ :=
  if 0 ≤ q then q.num / (q.den : ℤ) else -((-q.num) / (q.den : ℤ))

/-- One lowercase hex digit. -/
def hexDig (n : ℕ) : Char :=
  if n < 10 then Char.ofNat (48 + n) else Char.ofNat (87 + n)

/-- Format `f"{n:02x}"` for a channel sample in `0..255`. -/
def hex2 (n : ℕ) : String := ⟨[hexDig (n / 16), hexDig (n % 16)]⟩

/-- Format `f"#{r:02x}{g:02x}{b:02x}"`. -/
def hexColor (r g b : ℕ) : String := "#" ++ hex2 r ++ hex2 g ++ hex2 b

/-- Source `extract_dominant_colors`: resize to 100×100, run k-means with the fixed
`random_state=42`, and format each centroid as a hex string. -/
def extract_dominant_colors (ext : Ext) (img : Img) (nColors : ℕ) : List String :=
  let pixels := ext.resize100 img
  let centers := ext.kmeans pixels nColors 42
  centers.map (fun c => hexColor (pyint c.1).toNat (pyint c.2.1).toNat (pyint c.2.2).toNat)

/-! ### Global statistics (`calculate_brightness_contrast`) -/

/-- HSV value channel of a pixel: `max(R, G, B)`. -/
def vAt (img : Img) (y x : ℕ) : ℕ :=
  max (img.pix y x).1 (max (img.pix y x).2.1 (img.pix y x).2.2)

/-- Sum of the value channel over the image. -/
def vSum (img : Img) : ℕ :=
  sumList ((List.range img.h).map (fun y =>
    sumList ((List.range img.w).map (fun x => vAt img y x))))

/-- Sum of all grayscale samples. -/
def graySumAll (img : Img) : ℕ := regionGraySum img 0 0 img.w img.h

/-- Sum of the squared grayscale samples. -/
def graySqSum (img : Img) : ℕ :=
  sumList ((List.range img.h).map (fun y =>
    sumList ((List.range img.w).map (fun x => grayAt img y x * grayAt img y x))))

/-- Source `calculate_brightness_contrast`: brightness is the exact mean of the
HSV value channel; the contrast is `np.std(gray)`, i.e. the floating square
root (oracle `sqrtq`) of the exact population variance
`(n·Σg² − (Σg)²) / n²`. -/
def calculate_brightness_contrast (ext : Ext) (img : Img) : ℚ × ℚ :=
  let n := img.w * img.h
  let brightness : ℚ := mkRat (vSum img) n
  let variance : ℚ := mkRat ((n : ℤ) * graySqSum img - (graySumAll img : ℤ) ^ 2) (n * n)
  (brightness, ext.sqrtq variance)

/-! ### The main pipeline (`run_full_analysis`) -/

/-- Label access `detection.get('label', '')` (labels are strings under the detection
input contract; a non-string value is treated like the default). -/
def labelOf (d : Dict) : String :=
  match dget d "label" with
  | some (Val.str s) => s
  | _ => ""

/-- STEP 2 of `run_full_analysis`: route every detection to the text, face
or object bucket — `is_text_element` is tested FIRST, then
`is_face_element`, else object. -/
def categorize : List Dict → List Dict × List Dict × List Dict
  | [] => ([], [], [])
  | d :: ds =>
    let r := categorize ds
    if is_text_element (labelOf d) then (d :: r.1, r.2.1, r.2.2)
    else if is_face_element (labelOf d) then (r.1, d :: r.2.1, r.2.2)
    else (r.1, r.2.1, d :: r.2.2)

/-- STEP 3 preparation: the text blocks handed to `crop_and_extract_text`
(`{'bbox_normalized': ..., 'text_label': elem.get('label', 'text')}` for
every text element that has a bbox key). -/
def ocrBlocksOf (textElems : List Dict) : List Dict :=
  textElems.filterMap (fun t =>
    match dget t "bbox_normalized" with
    | some v => some [("bbox_normalized", v), ("text_label", (dget t "label").getD (Val.str "text"))]
    | none => none)

/-- STEP 4/5 body: copy the element, attach `contrast_score_vs_bg` and
`position` (computed when a `bbox_normalized` key is present — under the
input contract its value is a 4-int list — defaults `0.5` / `"unknown"`
otherwise), then set `element_type`.  The face loop uses `etype = "face"`,
the object loop `etype = "object"`; the two loop bodies are otherwise
identical. -/
def processElem (img : Img) (etype : String) (d : Dict) : Dict :=
  let d1 :=
    match dget d "bbox_normalized" with
    | some (Val.intList box) =>
        dset (dset d "contrast_score_vs_bg" (Val.rat (calculate_object_contrast img box)))
          "position" (Val.str (calculate_face_position box))
    | _ =>
        dset (dset d "contrast_score_vs_bg" (Val.rat (mkRat 1 2)))
          "position" (Val.str "unknown")
  dset d1 "element_type" (Val.str etype)

/-- The `detected_emotion` update of the face loop: take the `emotion` value
of the current face if no emotion has been recorded yet (`detected_emotion
is None`) and the face carries the key — the recorded value may itself be
null, in which case later faces can still fill it. -/
def updEmotion (acc : Val) (f : Dict) : Val :=
  if acc = Val.null then
    match dget f "emotion" with
    | some v => v
    | none => acc
  else acc

/-- The analysis record compiled in STEP 6 of `run_full_analysis`. -/
structure Record where
  average_brightness : ℚ
  contrast_level : ℚ
  dominant_colors : List String
  text_content : String
  word_count : ℕ
  cropped_image_bytes : List ℕ
  face_count : ℕ
  detected_emotion : Val
  detected_faces : List Dict
  detected_objects : List Dict
deriving DecidableEq, Repr

/-- STEPs 1–6 of `run_full_analysis` on a successfully decoded image. -/
def buildRecord (ext : Ext) (img : Img) (ds : List Dict) : Record :=
  let bc := calculate_brightness_contrast ext img
  let colors := extract_dominant_colors ext img 5
  let cat := categorize ds
  let textData := crop_and_extract_text ext img (ocrBlocksOf cat.1)
  let faces := cat.2.1.map (processElem img "face")
  let objs := cat.2.2.map (processElem img "object")
  let emotion := faces.foldl updEmotion Val.null
  ⟨bc.1, bc.2, colors, textData.text_content, textData.word_count,
    textData.cropped_image_bytes, cat.2.1.length, emotion, faces, objs⟩

/-- Source `run_full_analysis`: decode the bytes (PIL raising on failure is the
`none` case — the fatal `DecodeError`), then compute the full record. -/
def run_full_analysis (ext : Ext) (imageBytes : List ℕ) (ds : List Dict) : Option Record :=
  match ext.decode imageBytes with
  | none => none
  | some img => some (buildRecord ext img ds)

/-! ### Specification-side definitions

These definitions follow the SPEC's words (for refinement comparisons in
the theorems below), not the code. -/

/-- The nine position labels of the 3×3 grid (spec §8). -/
def nineLabels : List String :=
  ["top-left", "top-center", "top-right", "center-left", "center",
   "center-right", "bottom-left", "bottom-center", "bottom-right"]

/-- The bbox centre abscissa `(x_min + x_max) / 2` in normalized space. -/
def centerX (bbox : List ℤ) : ℚ := mkRat (bbox.getD 0 0 + bbox.getD 2 0) 2

/-- The bbox centre ordinate `(y_min + y_max) / 2` in normalized space. -/
def centerY (bbox : List ℤ) : ℚ := mkRat (bbox.getD 1 0 + bbox.getD 3 0) 2

/-- Grayscale mean of the clamped interior region (spec formula). -/
def interiorMean (img : Img) (bbox : List ℤ) : ℚ :=
  (interiorSum img bbox : ℚ) / (areaOf img.w img.h bbox : ℚ)

/-- Grayscale mean of the exterior (inverse mask) region (spec formula). -/
def exteriorMean (img : Img) (bbox : List ℤ) : ℚ :=
  (exteriorSum img bbox : ℚ) / (bgCountOf img bbox : ℚ)

/-- Spec-side running min/max union of all valid denormalized text boxes:
`min_x/min_y` fold from `(w, h)` downward, `max_x/max_y` fold from `0`
upward (spec §4.6 step 1–2). -/
def unionBox (w h : ℕ) (blocks : List Dict) : ℤ × ℤ × ℤ × ℤ :=
  ((validBoxes w h blocks).foldl (fun m b => min m b.1) (w : ℤ),
   (validBoxes w h blocks).foldl (fun m b => min m b.2.1) (h : ℤ),
   (validBoxes w h blocks).foldl (fun m b => max m b.2.2.1) 0,
   (validBoxes w h blocks).foldl (fun m b => max m b.2.2.2) 0)

/-- Claimed emotion rule (spec §4.7): the first non-null, non-"neutral"
emotion among the face elements, falling back to the first face's emotion if
all face emotions are neutral, and null when there are no face elements. -/
def spec_detected_emotion (faces : List Dict) : Val :=
  match (faces.filterMap (fun f =>
    match dget f "emotion" with
    | some v => if v = Val.null ∨ v = Val.str "neutral" then none else some v
    | none => none)).head? with
  | some v => v
  | none =>
    match faces.head? with
    | some f => (dget f "emotion").getD Val.null
    | none => Val.null

/-- The emotion value the face loop of `run_full_analysis` actually keeps
from one face: the `emotion` value when present and non-null. -/
def emotionValOf (f : Dict) : Option Val :=
  match dget f "emotion" with
  | some v => if v = Val.null then none else some v
  | none => none

/-- What the face loop computes (amended claim): the first present,
non-null `emotion` value among the faces in list order, null otherwise. -/
def firstEmotionVal (faces : List Dict) : Val :=
  ((faces.filterMap emotionValOf).head?).getD Val.null

/-- A hexadecimal character as produced by `%x` formatting. -/
def isHexCh (c : Char) : Bool := c.isDigit || ('a' ≤ c && c ≤ 'f')

/-! ### Concrete fixtures used by witnesses and counterexamples -/

/-- A 1×1 black image. -/
def img1 : Img := ⟨1, 1, fun _ _ => (0, 0, 0)⟩

/-- A 4×4 image whose leftmost column is black and the rest white. -/
def imgBW : Img := ⟨4, 4, fun _ x => if x = 0 then (0, 0, 0) else (255, 255, 255)⟩

/-- Trivial oracle set: everything decodes to the 1×1 black image, k-means
returns k black centroids, OCR reads nothing. -/
def extTriv : Ext :=
  ⟨fun _ => some img1, fun _ => [], fun _ k _ => List.replicate k (0, 0, 0),
   fun _ => "", fun _ => [], fun _ => 0⟩

/-- Oracle set whose decoder always fails. -/
def extNone : Ext :=
  ⟨fun _ => none, fun _ => [], fun _ k _ => List.replicate k (0, 0, 0),
   fun _ => "", fun _ => [], fun _ => 0⟩

/-- A detection labelled `"text_person"`, matching both keyword sets. -/
def dTextPerson : Dict := [("label", Val.str "text_person")]

/-- Two faces: the first with a `"neutral"` emotion, the second `"happy"`. -/
def dsNeutralHappy : List Dict :=
  [[("label", Val.str "face"), ("emotion", Val.str "neutral")],
   [("label", Val.str "person"), ("emotion", Val.str "happy")]]

/-- A face detection that already carries a `position` key. -/
def dPosClash : Dict := [("label", Val.str "person"), ("position", Val.str "original")]

/-- Text blocks with no valid box: one without the bbox key, one whose box
is degenerate, one whose bbox value has the wrong length. -/
def badBlocks : List Dict :=
  [[("text_label", Val.str "x")],
   [("bbox_normalized", Val.intList [500, 500, 500, 900])],
   [("bbox_normalized", Val.intList [1, 2])]]

/-- The two text boxes of the spec's aggregation example. -/
def exampleBlocks : List Dict :=
  [[("bbox_normalized", Val.intList [100, 100, 300, 300])],
   [("bbox_normalized", Val.intList [600, 600, 800, 800])]]

/-- A 4×4 image whose leftmost column is black and the rest mid-gray
(grayscale sample 100), giving an uncapped contrast score. -/
def imgGray : Img := ⟨4, 4, fun _ x => if x = 0 then (0, 0, 0) else (100, 100, 100)⟩

/-! ## Theorems -/

theorem den_cast_ne (a : ℚ) : ((a.den : ℚ)) ≠ 0 :=
  (Nat.cast_ne_zero (R := ℚ)).2 a.den_nz

theorem num_cast_eq (a : ℚ) : (a.num : ℚ) = a * a.den := by
  have h := Rat.num_div_den a
  rw [div_eq_iff (den_cast_ne a)] at h
  exact h

theorem qadd_eq (a b : ℚ) : qadd a b = a + b := by
  have hD : ((a.den : ℚ)) * (b.den : ℚ) ≠ 0 := mul_ne_zero (den_cast_ne a) (den_cast_ne b)
  rw [qadd, Rat.divInt_eq_div]
  push_cast
  rw [div_eq_iff hD, num_cast_eq a, num_cast_eq b]
  ring

theorem qsub_eq (a b : ℚ) : qsub a b = a - b := by
  have hD : ((a.den : ℚ)) * (b.den : ℚ) ≠ 0 := mul_ne_zero (den_cast_ne a) (den_cast_ne b)
  rw [qsub, Rat.divInt_eq_div]
  push_cast
  rw [div_eq_iff hD, num_cast_eq a, num_cast_eq b]
  ring

theorem qmul_eq (a b : ℚ) : qmul a b = a * b := by
  have hD : ((a.den : ℚ)) * (b.den : ℚ) ≠ 0 := mul_ne_zero (den_cast_ne a) (den_cast_ne b)
  rw [qmul, Rat.divInt_eq_div]
  push_cast
  rw [div_eq_iff hD, num_cast_eq a, num_cast_eq b]
  ring

theorem qdiv_eq (a b : ℚ) : qdiv a b = a / b := by
  rcases eq_or_ne b 0 with rfl | hb0
  · simp [qdiv, Rat.divInt_eq_div]
  · have hbn : ((b.num : ℚ)) ≠ 0 := by
      exact_mod_cast fun h => hb0 (Rat.zero_of_num_zero (by exact_mod_cast h))
    have hD : ((a.den : ℚ)) * (b.num : ℚ) ≠ 0 := mul_ne_zero (den_cast_ne a) hbn
    rw [qdiv, Rat.divInt_eq_div]
    push_cast
    rw [div_eq_iff hD, num_cast_eq a, div_mul_eq_mul_div, eq_div_iff hb0, num_cast_eq b]
    ring

/-! ### Classification lemmas -/

theorem mem_text_bucket (ds : List Dict) (d : Dict) (hd : d ∈ ds)
    (ht : is_text_element (labelOf d) = true) : d ∈ (categorize ds).1 := by
  induction ds with
  | nil => cases hd
  | cons e es ih =>
    rcases List.mem_cons.1 hd with rfl | hd'
    · simp [categorize, ht]
    · by_cases hte : is_text_element (labelOf e) <;>
        by_cases hfe : is_face_element (labelOf e) <;>
        simp [categorize, hte, hfe, ih hd']

theorem mem_faces_not_text (ds : List Dict) :
    ∀ f ∈ (categorize ds).2.1, is_text_element (labelOf f) = false := by
  induction ds with
  | nil => intro f hf; simp [categorize] at hf
  | cons e es ih =>
    intro f hf
    by_cases hte : is_text_element (labelOf e) <;>
      by_cases hfe : is_face_element (labelOf e) <;>
      simp [categorize, hte, hfe] at hf
    · exact ih f hf
    · exact ih f hf
    · rcases hf with rfl | hf'
      · simpa using hte
      · exact ih f hf'
    · exact ih f hf

/-- Claim C1 (amended): In `run_full_analysis` the text keywords are tested before
the face keywords, so a detection whose label matches both sets is routed to
the text bucket (the one used for OCR aggregation), never to the face
bucket, and `detected_faces` is exactly the processed face bucket.  The
claim's final clause is false of the legacy `classify_element_type`, which
tests the face keywords first (see the counterexample). -/
theorem text_beats_face_in_run_full_analysis (ext : Ext) (bytes : List ℕ)
    (ds : List Dict) (img : Img) (r : Record)
    (hdec : ext.decode bytes = some img)
    (hrun : run_full_analysis ext bytes ds = some r)
    (d : Dict) (hd : d ∈ ds) (ht : is_text_element (labelOf d) = true) :
    d ∈ (categorize ds).1 ∧
    (∀ f ∈ (categorize ds).2.1, is_text_element (labelOf f) = false) ∧
    r.detected_faces = ((categorize ds).2.1).map (processElem img "face") := by
  have hr : r = buildRecord ext img ds := by
    rw [run_full_analysis, hdec] at hrun
    exact (Option.some_injective _ hrun).symm
  subst hr
  exact ⟨mem_text_bucket ds d hd ht, mem_faces_not_text ds, rfl⟩

/-- Claim C1 counterexample to the claim as stated: `classify_element_type` tests
the face keywords first, so the label `"text_person"` — which matches both
keyword sets — is classified `"face"`, not `"text"`. -/
theorem classify_element_type_face_first :
    is_text_element "text_person" = true ∧ is_face_element "text_person" = true ∧
    classify_element_type "text_person" = "face" ∧ "face" ≠ "text" := by decide

/-- Claim C1 witness: the `"text_person"` detection goes to the text bucket and the
face bucket stays empty. -/
theorem text_beats_face_witness :
    dTextPerson ∈ (categorize [dTextPerson]).1 ∧
    (∀ f ∈ (categorize [dTextPerson]).2.1, is_text_element (labelOf f) = false) ∧
    (buildRecord extTriv img1 [dTextPerson]).detected_faces =
      ((categorize [dTextPerson]).2.1).map (processElem img1 "face") :=
  text_beats_face_in_run_full_analysis extTriv [0] [dTextPerson] img1
    (buildRecord extTriv img1 [dTextPerson]) rfl rfl dTextPerson (by decide) (by decide)

/-! ### Clamping lemmas (contrast prologue) -/

theorem clampBox_x1_nonneg (w h : ℕ) (bbox : List ℤ) : 0 ≤ (clampBox w h bbox).1 :=
  le_max_left _ _

theorem clampBox_y1_nonneg (w h : ℕ) (bbox : List ℤ) : 0 ≤ (clampBox w h bbox).2.1 :=
  le_max_left _ _

theorem clampBox_x_lt (w h : ℕ) (bbox : List ℤ) :
    (clampBox w h bbox).1 < (clampBox w h bbox).2.2.1 :=
  lt_of_lt_of_le (lt_add_one _) (le_max_left _ _)

theorem clampBox_y_lt (w h : ℕ) (bbox : List ℤ) :
    (clampBox w h bbox).2.1 < (clampBox w h bbox).2.2.2 :=
  lt_of_lt_of_le (lt_add_one _) (le_max_left _ _)

theorem contrast_eq_main (img : Img) (bbox : List ℤ) :
    calculate_object_contrast img bbox = contrastMain img bbox := by
  rw [calculate_object_contrast, if_neg]
  push_neg
  exact ⟨clampBox_x_lt _ _ _, clampBox_y_lt _ _ _⟩

theorem areaOf_pos (w h : ℕ) (bbox : List ℤ) : areaOf w h bbox ≠ 0 := by
  have hx := clampBox_x_lt w h bbox
  have hy := clampBox_y_lt w h bbox
  have hx0 := clampBox_x1_nonneg w h bbox
  have hy0 := clampBox_y1_nonneg w h bbox
  rw [areaOf]
  exact Nat.mul_ne_zero (by omega) (by omega)

/-- Claim C2 (amended): The clamping step of `calculate_object_contrast` forces
`x2 ≥ x1 + 1` and `y2 ≥ y1 + 1`, so no box is degenerate after clamping and
the `0.5` default guarded by `x1 >= x2 or y1 >= y2` is unreachable: every
call — in particular one whose bbox has zero area after denormalization —
reaches the main mean-difference computation on the expanded (≥ 1 pixel)
region. -/
theorem clamped_box_never_degenerate (img : Img) (bbox : List ℤ) :
    (clampBox img.w img.h bbox).1 < (clampBox img.w img.h bbox).2.2.1 ∧
    (clampBox img.w img.h bbox).2.1 < (clampBox img.w img.h bbox).2.2.2 ∧
    calculate_object_contrast img bbox = contrastMain img bbox :=
  ⟨clampBox_x_lt _ _ _, clampBox_y_lt _ _ _, contrast_eq_main img bbox⟩

/-- Claim C2 counterexample to the claim as stated: on a 4×4 image whose left
column is black and the rest white, the box `[0, 0, 0, 1000]` has zero width
after denormalization (`x_min = x_max = 0`), yet `calculate_object_contrast`
returns the computed score `1`, not the neutral default `0.5` — the clamp
expands the box to a 1-pixel-wide column and scores it normally. -/
theorem degenerate_box_not_half :
    denorm (([0, 0, 0, 1000] : List ℤ).getD 0 0) (imgBW.w : ℤ) =
      denorm (([0, 0, 0, 1000] : List ℤ).getD 2 0) (imgBW.w : ℤ) ∧
    calculate_object_contrast imgBW [0, 0, 0, 1000] = 1 ∧
    (1 : ℚ) ≠ mkRat 1 2 := by decide

/-- Claim C4: `calculate_face_position` buckets the bbox centre `(cx, cy)` exactly
as the spec states — `left` for `cx < 333`, `center` for `333 ≤ cx < 666`,
else `right`, and `top`/`center`/`bottom` likewise for `cy` — combines the
buckets per the stated rules, and always lands in the nine grid labels. -/
theorem face_position_buckets (b0 b1 b2 b3 : ℤ) :
    calculate_face_position [b0, b1, b2, b3] ∈ nineLabels ∧
    (centerX [b0, b1, b2, b3] < 333 → centerY [b0, b1, b2, b3] < 333 →
      calculate_face_position [b0, b1, b2, b3] = "top-left") ∧
    (333 ≤ centerX [b0, b1, b2, b3] → centerX [b0, b1, b2, b3] < 666 →
      centerY [b0, b1, b2, b3] < 333 →
      calculate_face_position [b0, b1, b2, b3] = "top-center") ∧
    (666 ≤ centerX [b0, b1, b2, b3] → centerY [b0, b1, b2, b3] < 333 →
      calculate_face_position [b0, b1, b2, b3] = "top-right") ∧
    (centerX [b0, b1, b2, b3] < 333 → 333 ≤ centerY [b0, b1, b2, b3] →
      centerY [b0, b1, b2, b3] < 666 →
      calculate_face_position [b0, b1, b2, b3] = "center-left") ∧
    (333 ≤ centerX [b0, b1, b2, b3] → centerX [b0, b1, b2, b3] < 666 →
      333 ≤ centerY [b0, b1, b2, b3] → centerY [b0, b1, b2, b3] < 666 →
      calculate_face_position [b0, b1, b2, b3] = "center") ∧
    (666 ≤ centerX [b0, b1, b2, b3] → 333 ≤ centerY [b0, b1, b2, b3] →
      centerY [b0, b1, b2, b3] < 666 →
      calculate_face_position [b0, b1, b2, b3] = "center-right") ∧
    (centerX [b0, b1, b2, b3] < 333 → 666 ≤ centerY [b0, b1, b2, b3] →
      calculate_face_position [b0, b1, b2, b3] = "bottom-left") ∧
    (333 ≤ centerX [b0, b1, b2, b3] → centerX [b0, b1, b2, b3] < 666 →
      666 ≤ centerY [b0, b1, b2, b3] →
      calculate_face_position [b0, b1, b2, b3] = "bottom-center") ∧
    (666 ≤ centerX [b0, b1, b2, b3] → 666 ≤ centerY [b0, b1, b2, b3] →
      calculate_face_position [b0, b1, b2, b3] = "bottom-right") := by
  have hcx : centerX [b0, b1, b2, b3] = mkRat (b0 + b2) 2 := rfl
  have hcy : centerY [b0, b1, b2, b3] = mkRat (b1 + b3) 2 := rfl
  rw [hcx, hcy]
  have hbody : calculate_face_position [b0, b1, b2, b3] =
      (let hp : String :=
        if mkRat (b0 + b2) 2 < 333 then "left"
        else if mkRat (b0 + b2) 2 < 666 then "center" else "right"
       let vp : String :=
        if mkRat (b1 + b3) 2 < 333 then "top"
        else if mkRat (b1 + b3) 2 < 666 then "center" else "bottom"
       if vp = "center" && hp = "center" then "center"
       else if vp = "center" then "center-" ++ hp
       else if hp = "center" then vp ++ "-center"
       else vp ++ "-" ++ hp) := rfl
  rw [hbody]
  rcases lt_or_le (mkRat (b0 + b2) 2) 333 with hx1 | hx1
  · rcases lt_or_le (mkRat (b1 + b3) 2) 333 with hy1 | hy1
    · simp only [if_pos hx1, if_pos hy1]
      refine ⟨by decide, ?_, ?_, ?_, ?_, ?_, ?_, ?_, ?_, ?_⟩ <;>
        intros <;> first | decide | linarith
    · rcases lt_or_le (mkRat (b1 + b3) 2) 666 with hy2 | hy2
      · simp only [if_pos hx1, if_neg (not_lt.2 hy1), if_pos hy2]
        refine ⟨by decide, ?_, ?_, ?_, ?_, ?_, ?_, ?_, ?_, ?_⟩ <;>
          intros <;> first | decide | linarith
      · simp only [if_pos hx1, if_neg (not_lt.2 hy1), if_neg (not_lt.2 hy2)]
        refine ⟨by decide, ?_, ?_, ?_, ?_, ?_, ?_, ?_, ?_, ?_⟩ <;>
          intros <;> first | decide | linarith
  · rcases lt_or_le (mkRat (b0 + b2) 2) 666 with hx2 | hx2
    · rcases lt_or_le (mkRat (b1 + b3) 2) 333 with hy1 | hy1
      · simp only [if_neg (not_lt.2 hx1), if_pos hx2, if_pos hy1]
        refine ⟨by decide, ?_, ?_, ?_, ?_, ?_, ?_, ?_, ?_, ?_⟩ <;>
          intros <;> first | decide | linarith
      · rcases lt_or_le (mkRat (b1 + b3) 2) 666 with hy2 | hy2
        · simp only [if_neg (not_lt.2 hx1), if_pos hx2, if_neg (not_lt.2 hy1), if_pos hy2]
          refine ⟨by decide, ?_, ?_, ?_, ?_, ?_, ?_, ?_, ?_, ?_⟩ <;>
            intros <;> first | decide | linarith
        · simp only [if_neg (not_lt.2 hx1), if_pos hx2, if_neg (not_lt.2 hy1),
            if_neg (not_lt.2 hy2)]
          refine ⟨by decide, ?_, ?_, ?_, ?_, ?_, ?_, ?_, ?_, ?_⟩ <;>
            intros <;> first | decide | linarith
    · rcases lt_or_le (mkRat (b1 + b3) 2) 333 with hy1 | hy1
      · simp only [if_neg (not_lt.2 hx1), if_neg (not_lt.2 hx2), if_pos hy1]
        refine ⟨by decide, ?_, ?_, ?_, ?_, ?_, ?_, ?_, ?_, ?_⟩ <;>
          intros <;> first | decide | linarith
      · rcases lt_or_le (mkRat (b1 + b3) 2) 666 with hy2 | hy2
        · simp only [if_neg (not_lt.2 hx1), if_neg (not_lt.2 hx2), if_neg (not_lt.2 hy1),
            if_pos hy2]
          refine ⟨by decide, ?_, ?_, ?_, ?_, ?_, ?_, ?_, ?_, ?_⟩ <;>
            intros <;> first | decide | linarith
        · simp only [if_neg (not_lt.2 hx1), if_neg (not_lt.2 hx2), if_neg (not_lt.2 hy1),
            if_neg (not_lt.2 hy2)]
          refine ⟨by decide, ?_, ?_, ?_, ?_, ?_, ?_, ?_, ?_, ?_⟩ <;>
            intros <;> first | decide | linarith

/-- Claim C4 witness: the four boundary examples of the spec, via the bucket
characterization. -/
theorem face_position_witness :
    calculate_face_position [0, 0, 1000, 1000] ∈ nineLabels ∧
    calculate_face_position [0, 0, 1000, 1000] = "center" ∧
    calculate_face_position [0, 0, 200, 200] = "top-left" ∧
    calculate_face_position [800, 0, 1000, 1000] = "center-right" ∧
    calculate_face_position [0, 800, 1000, 1000] = "bottom-center" :=
  ⟨(face_position_buckets 0 0 1000 1000).1,
   (face_position_buckets 0 0 1000 1000).2.2.2.2.2.1
     (by decide) (by decide) (by decide) (by decide),
   (face_position_buckets 0 0 200 200).2.1 (by decide) (by decide),
   (face_position_buckets 800 0 1000 1000).2.2.2.2.2.2.1
     (by decide) (by decide) (by decide),
   (face_position_buckets 0 800 1000 1000).2.2.2.2.2.2.2.2.1
     (by decide) (by decide) (by decide)⟩

/-! ### Aggregation-fold lemmas -/

theorem foldl_stepAgg_invalid (w h : ℕ) (blocks : List Dict) (a : Agg)
    (hinv : ∀ b ∈ blocks, validBoxOf w h b = none) :
    blocks.foldl (stepAgg w h) a = a := by
  induction blocks generalizing a with
  | nil => rfl
  | cons b bs ih =>
    have hb : validBoxOf w h b = none := hinv b (List.mem_cons_self b bs)
    have hstep : stepAgg w h a b = a := by rw [stepAgg, hb]
    rw [List.foldl_cons, hstep]
    exact ih a (fun x hx => hinv x (List.mem_cons_of_mem b hx))

theorem foldl_stepAgg_eq (w h : ℕ) (blocks : List Dict) (a : Agg) :
    blocks.foldl (stepAgg w h) a =
      ⟨(validBoxes w h blocks).foldl (fun m b => min m b.1) a.minx,
       (validBoxes w h blocks).foldl (fun m b => min m b.2.1) a.miny,
       (validBoxes w h blocks).foldl (fun m b => max m b.2.2.1) a.maxx,
       (validBoxes w h blocks).foldl (fun m b => max m b.2.2.2) a.maxy,
       a.found || !(validBoxes w h blocks).isEmpty⟩ := by
  induction blocks generalizing a with
  | nil => simp [validBoxes]
  | cons b bs ih =>
    rw [List.foldl_cons]
    cases hv : validBoxOf w h b with
    | none =>
      have hstep : stepAgg w h a b = a := by rw [stepAgg, hv]
      rw [hstep, ih a]
      simp [validBoxes, List.filterMap_cons, hv]
    | some box =>
      obtain ⟨x1, y1, x2, y2⟩ := box
      have hstep : stepAgg w h a b =
          ⟨min a.minx x1, min a.miny y1, max a.maxx x2, max a.maxy y2, true⟩ := by
        rw [stepAgg, hv]
      rw [hstep, ih]
      simp [validBoxes, List.filterMap_cons, hv]

/-- Claim C5: When no entry of the text-block list carries a valid box — the list
is empty, or every entry lacks a 4-element `bbox_normalized` list, or every
box has zero/negative area after denormalization (all three are
`validBoxOf _ _ _ = none`) — `crop_and_extract_text` returns the empty-text
sentinel (`"None"`, word count `0`, no crop bytes) for every OCR oracle, and
no crop rectangle is produced. -/
theorem no_valid_box_sentinel (ext : Ext) (img : Img) (blocks : List Dict)
    (hinv : ∀ b ∈ blocks, validBoxOf img.w img.h b = none) :
    crop_and_extract_text ext img blocks = sentinelText ∧
    aggregateRect img.w img.h blocks = none := by
  have hagg : aggregateRect img.w img.h blocks = none := by
    rw [aggregateRect, foldl_stepAgg_invalid img.w img.h blocks _ hinv]
    rfl
  refine ⟨?_, hagg⟩
  rw [crop_and_extract_text]
  by_cases hb : blocks.isEmpty
  · rw [if_pos hb]
  · rw [if_neg hb, hagg]

/-- Claim C5 witness: a block list with a missing bbox key, a degenerate box and a
malformed (2-element) box yields the sentinel on the 4×4 test image. -/
theorem no_valid_box_sentinel_witness :
    crop_and_extract_text extTriv imgBW badBlocks = sentinelText ∧
    aggregateRect imgBW.w imgBW.h badBlocks = none :=
  no_valid_box_sentinel extTriv imgBW badBlocks (by decide)

theorem foldl_min_le_init {α : Type} (g : α → ℤ) (l : List α) (i : ℤ) :
    l.foldl (fun m b => min m (g b)) i ≤ i := by
  induction l generalizing i with
  | nil => exact le_refl i
  | cons a l ih => exact le_trans (ih (min i (g a))) (min_le_left _ _)

theorem foldl_min_le_mem {α : Type} (g : α → ℤ) (l : List α) (b : α)
    (hb : b ∈ l) : ∀ i : ℤ, l.foldl (fun m b => min m (g b)) i ≤ g b := by
  induction l with
  | nil => cases hb
  | cons a l ih =>
    intro i
    rcases List.mem_cons.1 hb with rfl | hb'
    · exact le_trans (foldl_min_le_init g l (min i (g b))) (min_le_right _ _)
    · exact ih hb' (min i (g a))

theorem le_foldl_max_init {α : Type} (g : α → ℤ) (l : List α) (i : ℤ) :
    i ≤ l.foldl (fun m b => max m (g b)) i := by
  induction l generalizing i with
  | nil => exact le_refl i
  | cons a l ih => exact le_trans (le_max_left _ _) (ih (max i (g a)))

theorem le_foldl_max_mem {α : Type} (g : α → ℤ) (l : List α) (b : α)
    (hb : b ∈ l) : ∀ i : ℤ, g b ≤ l.foldl (fun m b => max m (g b)) i := by
  induction l with
  | nil => cases hb
  | cons a l ih =>
    intro i
    rcases List.mem_cons.1 hb with rfl | hb'
    · exact le_trans (le_max_right _ _) (le_foldl_max_init g l (max i (g b)))
    · exact ih hb' (max i (g a))

theorem validBoxes_mem_lt (w h : ℕ) (blocks : List Dict) (b : ℤ × ℤ × ℤ × ℤ)
    (hb : b ∈ validBoxes w h blocks) : b.1 < b.2.2.1 ∧ b.2.1 < b.2.2.2 := by
  rw [validBoxes, List.mem_filterMap] at hb
  obtain ⟨blk, _, hv⟩ := hb
  unfold validBoxOf at hv
  split at hv
  · split at hv
    · dsimp only at hv
      split at hv
      · exact absurd hv (by simp)
      · next hdeg =>
        injection hv with hv'
        subst hv'
        push_neg at hdeg
        exact ⟨hdeg.1, hdeg.2⟩
    · exact absurd hv (by simp)
  · exact absurd hv (by simp)

/-- Claim C6: When at least one text box is valid, the crop rectangle computed by
`crop_and_extract_text` is exactly the running min/max union of all valid
denormalized boxes, expanded by the fixed 15-pixel buffer on all sides and
clamped to the image bounds (the degeneracy re-check after buffering never
fires). -/
theorem text_union_crop (w h : ℕ) (blocks : List Dict) (hw : 1 ≤ w) (hh : 1 ≤ h)
    (hne : validBoxes w h blocks ≠ []) :
    aggregateRect w h blocks =
      some (max 0 ((unionBox w h blocks).1 - 15),
            max 0 ((unionBox w h blocks).2.1 - 15),
            min (w : ℤ) ((unionBox w h blocks).2.2.1 + 15),
            min (h : ℤ) ((unionBox w h blocks).2.2.2 + 15)) := by
  obtain ⟨b0, hb0⟩ := List.exists_mem_of_ne_nil _ hne
  have hlt := validBoxes_mem_lt w h blocks b0 hb0
  have h1 := foldl_min_le_init (fun b : ℤ × ℤ × ℤ × ℤ => b.1) (validBoxes w h blocks) (w : ℤ)
  have h2 := foldl_min_le_mem (fun b : ℤ × ℤ × ℤ × ℤ => b.1) (validBoxes w h blocks) b0 hb0 (w : ℤ)
  have h3 := foldl_min_le_init (fun b : ℤ × ℤ × ℤ × ℤ => b.2.1) (validBoxes w h blocks) (h : ℤ)
  have h4 := foldl_min_le_mem (fun b : ℤ × ℤ × ℤ × ℤ => b.2.1) (validBoxes w h blocks) b0 hb0 (h : ℤ)
  have h5 := le_foldl_max_init (fun b : ℤ × ℤ × ℤ × ℤ => b.2.2.1) (validBoxes w h blocks) 0
  have h6 := le_foldl_max_mem (fun b : ℤ × ℤ × ℤ × ℤ => b.2.2.1) (validBoxes w h blocks) b0 hb0 0
  have h7 := le_foldl_max_init (fun b : ℤ × ℤ × ℤ × ℤ => b.2.2.2) (validBoxes w h blocks) 0
  have h8 := le_foldl_max_mem (fun b : ℤ × ℤ × ℤ × ℤ => b.2.2.2) (validBoxes w h blocks) b0 hb0 0
  have hwZ : (1 : ℤ) ≤ (w : ℤ) := by exact_mod_cast hw
  have hhZ : (1 : ℤ) ≤ (h : ℤ) := by exact_mod_cast hh
  have hE : (validBoxes w h blocks).isEmpty = false := by
    cases hE : (validBoxes w h blocks).isEmpty
    · rfl
    · exact absurd (List.isEmpty_iff.1 hE) hne
  simp only at h1 h2 h3 h4 h5 h6 h7 h8
  rw [aggregateRect, foldl_stepAgg_eq]
  simp only [hE, Bool.not_false, Bool.or_true, Bool.not_true, Bool.false_eq_true,
    if_false, unionBox]
  rw [if_neg (by push_neg; exact ⟨by omega, by omega⟩)]

/-- Claim C6 witness: the spec's example — boxes `[100,100,300,300]` and
`[600,600,800,800]` on a 1000×1000 image aggregate to the crop
`[85, 85, 815, 815]`. -/
theorem text_union_crop_witness :
    validBoxes 1000 1000 exampleBlocks ≠ [] ∧
    aggregateRect 1000 1000 exampleBlocks =
      some (max 0 ((unionBox 1000 1000 exampleBlocks).1 - 15),
            max 0 ((unionBox 1000 1000 exampleBlocks).2.1 - 15),
            min (1000 : ℤ) ((unionBox 1000 1000 exampleBlocks).2.2.1 + 15),
            min (1000 : ℤ) ((unionBox 1000 1000 exampleBlocks).2.2.2 + 15)) ∧
    aggregateRect 1000 1000 exampleBlocks = some (85, 85, 815, 815) :=
  ⟨by decide, text_union_crop 1000 1000 exampleBlocks (by decide) (by decide) (by decide),
   by decide⟩

/-! ### Rounding lemmas -/

theorem rhalfeven_nonneg (q : ℚ) (h0 : 0 ≤ q) : 0 ≤ rhalfeven q := by
  have hfd : q.num / (q.den : ℤ) = ⌊q⌋ := (Rat.floor_def).symm
  have hf : (0 : ℤ) ≤ ⌊q⌋ := Int.floor_nonneg.2 h0
  unfold rhalfeven
  rw [hfd]
  dsimp only
  split_ifs <;> omega

theorem rhalfeven_le_of_le (q : ℚ) (M : ℤ) (hq : q ≤ (M : ℚ)) : rhalfeven q ≤ M := by
  have hfd : q.num / (q.den : ℤ) = ⌊q⌋ := (Rat.floor_def).symm
  have hfM : ⌊q⌋ ≤ M := le_trans (Int.floor_le_floor hq) (le_of_eq (Int.floor_intCast M))
  have hden0 : (0 : ℚ) < (q.den : ℚ) := by
    exact_mod_cast Nat.pos_of_ne_zero q.den_nz
  have hnum : (q.num : ℚ) = q * q.den := num_cast_eq q
  have hkey : ∀ hden : (q.den : ℤ) ≤ 2 * (q.num - ⌊q⌋ * (q.den : ℤ)), ⌊q⌋ + 1 ≤ M := by
    intro hden
    have h2' : ((q.den : ℤ) : ℚ) ≤ 2 * ((q.num : ℚ) - (⌊q⌋ : ℚ) * ((q.den : ℤ) : ℚ)) := by
      exact_mod_cast hden
    push_cast at h2'
    rw [hnum] at h2'
    have hhalf : (⌊q⌋ : ℚ) + 1 / 2 ≤ q := by nlinarith
    have hlt : ((⌊q⌋ : ℚ)) < (M : ℚ) := by linarith
    have : ⌊q⌋ < M := by exact_mod_cast hlt
    omega
  unfold rhalfeven
  rw [hfd]
  dsimp only
  split_ifs with hc1 hc2 hc3
  · exact hfM
  · exact hkey (by omega)
  · exact hfM
  · exact hkey (by omega)

theorem round3_bounds (q : ℚ) (h0 : 0 ≤ q) (h1 : q ≤ 1) :
    0 ≤ round3 q ∧ round3 q ≤ 1 := by
  have hy0 : 0 ≤ qmul q 1000 := by
    rw [qmul_eq]; positivity
  have hy1 : qmul q 1000 ≤ ((1000 : ℤ) : ℚ) := by
    rw [qmul_eq]; push_cast; nlinarith
  have hr0 := rhalfeven_nonneg _ hy0
  have hr1 := rhalfeven_le_of_le _ 1000 hy1
  rw [round3, Rat.mkRat_eq_div]
  constructor
  · apply div_nonneg _ (by norm_num)
    exact_mod_cast hr0
  · rw [div_le_one (by norm_num)]
    exact_mod_cast hr1

/-- Claim C3: Whenever the exterior mask is non-empty, `calculate_object_contrast`
returns exactly `round3 (min 1 (|interior mean − exterior mean| / 255 · 2.5))`
(the spec's formula, with `round3` Python's 3-decimal rounding), and for
every bounding box whatsoever the returned score lies in `[0, 1]`. -/
theorem contrast_formula_and_bounds (img : Img) (bbox : List ℤ) :
    (bgCountOf img bbox ≠ 0 →
      calculate_object_contrast img bbox =
        round3 (min 1 (|interiorMean img bbox - exteriorMean img bbox| / 255 * 2.5))) ∧
    0 ≤ calculate_object_contrast img bbox ∧ calculate_object_contrast img bbox ≤ 1 := by
  have hmain := contrast_eq_main img bbox
  have harea := areaOf_pos img.w img.h bbox
  constructor
  · intro hbg
    rw [hmain, contrastMain]
    dsimp only
    rw [if_neg harea, if_neg hbg]
    have hinner :
        qmul (qdiv |qsub (mkRat (interiorSum img bbox) (areaOf img.w img.h bbox))
            (mkRat (exteriorSum img bbox) (bgCountOf img bbox))| 255) (mkRat 5 2) =
          |interiorMean img bbox - exteriorMean img bbox| / 255 * 2.5 := by
      rw [qmul_eq, qdiv_eq, qsub_eq, Rat.mkRat_eq_div, Rat.mkRat_eq_div, Rat.mkRat_eq_div,
        interiorMean, exteriorMean]
      push_cast
      norm_num
    rw [hinner]
  · rw [hmain, contrastMain]
    dsimp only
    split_ifs with h1 h2
    · constructor <;> norm_num [Rat.mkRat_eq_div]
    · constructor <;> norm_num [Rat.mkRat_eq_div]
    · have hx : 0 ≤ qmul (qdiv |qsub (mkRat (interiorSum img bbox) (areaOf img.w img.h bbox))
          (mkRat (exteriorSum img bbox) (bgCountOf img bbox))| 255) (mkRat 5 2) := by
        rw [qmul_eq, qdiv_eq, Rat.mkRat_eq_div]
        positivity
      exact round3_bounds _ (le_min (by norm_num) hx) (min_le_left _ _)

/-- Claim C3 witness: on the gray 4×4 test image with box `[0,0,250,1000]` the
exterior is non-empty, the formula applies, the bounds hold, and the
concrete value is `0.980`. -/
theorem contrast_formula_witness :
    bgCountOf imgGray [0, 0, 250, 1000] ≠ 0 ∧
    calculate_object_contrast imgGray [0, 0, 250, 1000] =
      round3 (min 1 (|interiorMean imgGray [0, 0, 250, 1000] -
        exteriorMean imgGray [0, 0, 250, 1000]| / 255 * 2.5)) ∧
    0 ≤ calculate_object_contrast imgGray [0, 0, 250, 1000] ∧
    calculate_object_contrast imgGray [0, 0, 250, 1000] ≤ 1 ∧
    calculate_object_contrast imgGray [0, 0, 250, 1000] = mkRat 49 50 :=
  ⟨by decide, (contrast_formula_and_bounds imgGray [0, 0, 250, 1000]).1 (by decide),
   (contrast_formula_and_bounds imgGray [0, 0, 250, 1000]).2.1,
   (contrast_formula_and_bounds imgGray [0, 0, 250, 1000]).2.2,
   by decide⟩

/-! ### Dominant-color lemmas -/

theorem pyint_nonneg (q : ℚ) (h0 : 0 ≤ q) : 0 ≤ pyint q := by
  have hfd : q.num / (q.den : ℤ) = ⌊q⌋ := (Rat.floor_def).symm
  rw [pyint, if_pos h0, hfd]
  exact Int.floor_nonneg.2 h0

theorem pyint_le (q : ℚ) (h0 : 0 ≤ q) (h255 : q ≤ 255) : pyint q ≤ 255 := by
  have hfd : q.num / (q.den : ℤ) = ⌊q⌋ := (Rat.floor_def).symm
  rw [pyint, if_pos h0, hfd]
  have h1 : ⌊q⌋ ≤ ⌊(255 : ℚ)⌋ := Int.floor_le_floor h255
  have h2 : ⌊(255 : ℚ)⌋ = 255 := by norm_num
  omega

theorem hexDig_hex (m : ℕ) (hm : m < 16) : isHexCh (hexDig m) = true := by
  interval_cases m <;> decide

theorem hexColor_format (r g b : ℕ) (hr : r ≤ 255) (hg : g ≤ 255) (hb : b ≤ 255) :
    (hexColor r g b).length = 7 ∧ (hexColor r g b).data.head? = some '#' ∧
    ((hexColor r g b).data.drop 1).all isHexCh = true := by
  have hdata : (hexColor r g b).data =
      ['#', hexDig (r / 16), hexDig (r % 16), hexDig (g / 16), hexDig (g % 16),
       hexDig (b / 16), hexDig (b % 16)] := rfl
  refine ⟨?_, ?_, ?_⟩
  · show (hexColor r g b).data.length = 7
    rw [hdata]
    rfl
  · rw [hdata]
    rfl
  · rw [hdata]
    have h1 : r / 16 < 16 := by omega
    have h2 : r % 16 < 16 := Nat.mod_lt _ (by norm_num)
    have h3 : g / 16 < 16 := by omega
    have h4 : g % 16 < 16 := Nat.mod_lt _ (by norm_num)
    have h5 : b / 16 < 16 := by omega
    have h6 : b % 16 < 16 := Nat.mod_lt _ (by norm_num)
    simp [hexDig_hex, h1, h2, h3, h4, h5, h6]

/-- Claim C7: Dominant-color extraction is deterministic — only the resize result
and the k-means behaviour at the hard-wired seed `42` can influence the
palette, so two runs whose library oracles agree there (in particular two
runs of the same libraries) produce identical palettes — and, provided the
k-means oracle returns `k` centroids with channels in `[0, 255]` (as
sklearn's does), the palette is a list of exactly `n` strings, each of the
shape `#rrggbb`: length 7, a leading `#`, and six lowercase hex digits. -/
theorem dominant_colors_deterministic_format (ext ext2 : Ext) (img : Img) (n : ℕ)
    (hlen : ∀ px k s, (ext.kmeans px k s).length = k)
    (hrange : ∀ px k s, ∀ c ∈ ext.kmeans px k s,
      0 ≤ c.1 ∧ c.1 ≤ 255 ∧ 0 ≤ c.2.1 ∧ c.2.1 ≤ 255 ∧ 0 ≤ c.2.2 ∧ c.2.2 ≤ 255)
    (hresize : ext2.resize100 = ext.resize100)
    (hk42 : ∀ px k, ext2.kmeans px k 42 = ext.kmeans px k 42) :
    extract_dominant_colors ext2 img n = extract_dominant_colors ext img n ∧
    (extract_dominant_colors ext img n).length = n ∧
    ∀ s ∈ extract_dominant_colors ext img n,
      ∃ r g b : ℕ, r ≤ 255 ∧ g ≤ 255 ∧ b ≤ 255 ∧ s = hexColor r g b ∧
        s.length = 7 ∧ s.data.head? = some '#' ∧ (s.data.drop 1).all isHexCh = true := by
  refine ⟨?_, ?_, ?_⟩
  · rw [extract_dominant_colors, extract_dominant_colors, hresize, hk42]
  · rw [extract_dominant_colors, List.length_map, hlen]
  · intro s hs
    rw [extract_dominant_colors] at hs
    obtain ⟨c, hc, rfl⟩ := List.mem_map.1 hs
    obtain ⟨h1, h2, h3, h4, h5, h6⟩ := hrange _ _ _ c hc
    have hr : (pyint c.1).toNat ≤ 255 := by
      have := pyint_le c.1 h1 h2
      have := pyint_nonneg c.1 h1
      omega
    have hg : (pyint c.2.1).toNat ≤ 255 := by
      have := pyint_le c.2.1 h3 h4
      have := pyint_nonneg c.2.1 h3
      omega
    have hb : (pyint c.2.2).toNat ≤ 255 := by
      have := pyint_le c.2.2 h5 h6
      have := pyint_nonneg c.2.2 h5
      omega
    obtain ⟨hl, hh, hx⟩ := hexColor_format _ _ _ hr hg hb
    exact ⟨_, _, _, hr, hg, hb, rfl, hl, hh, hx⟩

/-- Claim C7 witness: the trivial oracle set satisfies the k-means contract, and on
the 1×1 image the palette is five copies of `#000000`. -/
theorem dominant_colors_witness :
    (extract_dominant_colors extTriv img1 5).length = 5 ∧
    (∀ s ∈ extract_dominant_colors extTriv img1 5,
      ∃ r g b : ℕ, r ≤ 255 ∧ g ≤ 255 ∧ b ≤ 255 ∧ s = hexColor r g b ∧
        s.length = 7 ∧ s.data.head? = some '#' ∧ (s.data.drop 1).all isHexCh = true) ∧
    extract_dominant_colors extTriv img1 5 = List.replicate 5 "#000000" := by
  have h := dominant_colors_deterministic_format extTriv extTriv img1 5
    (fun px k s => List.length_replicate k (0, 0, 0))
    (fun px k s c hc => by
      have := List.eq_of_mem_replicate hc
      subst this
      norm_num)
    rfl (fun _ _ => rfl)
  exact ⟨h.2.1, h.2.2, by decide⟩

/-! ### Dict lemmas -/

theorem dget_dset_eq (d : Dict) (k : String) (v : Val) : dget (dset d k v) k = some v := by
  induction d with
  | nil => simp [dget, dset]
  | cons p ps ih =>
    by_cases hpk : p.1 = k
    · simp [dset, hpk, dget]
    · simp [dset, hpk, dget, ih]

theorem dget_dset_ne (d : Dict) (k k' : String) (v : Val) (hkk : k' ≠ k) :
    dget (dset d k v) k' = dget d k' := by
  induction d with
  | nil => simp [dget, dset, Ne.symm hkk]
  | cons p ps ih =>
    by_cases hpk : p.1 = k
    · have hpk' : p.1 ≠ k' := by rw [hpk]; exact Ne.symm hkk
      simp [dset, hpk, dget, hpk', Ne.symm hkk]
    · by_cases hp' : p.1 = k'
      · simp [dset, hpk, dget, hp', hkk]
      · simp [dset, hpk, dget, hp', ih]

theorem dget_processElem_ne (img : Img) (t : String) (d : Dict) (k : String)
    (h1 : k ≠ "contrast_score_vs_bg") (h2 : k ≠ "position") (h3 : k ≠ "element_type") :
    dget (processElem img t d) k = dget d k := by
  cases hb : dget d "bbox_normalized" with
  | none =>
    simp only [processElem, hb]
    rw [dget_dset_ne _ _ _ _ h3, dget_dset_ne _ _ _ _ h2, dget_dset_ne _ _ _ _ h1]
  | some v =>
    cases v <;> simp only [processElem, hb] <;>
      rw [dget_dset_ne _ _ _ _ h3, dget_dset_ne _ _ _ _ h2, dget_dset_ne _ _ _ _ h1]

theorem processElem_derived (img : Img) (t : String) (d : Dict) :
    dget (processElem img t d) "element_type" = some (Val.str t) ∧
    (dget (processElem img t d) "contrast_score_vs_bg").isSome = true ∧
    (dget (processElem img t d) "position").isSome = true := by
  cases hb : dget d "bbox_normalized" with
  | none =>
    simp only [processElem, hb]
    refine ⟨dget_dset_eq _ _ _, ?_, ?_⟩
    · rw [dget_dset_ne _ _ _ _ (by decide), dget_dset_ne _ _ _ _ (by decide), dget_dset_eq]
      rfl
    · rw [dget_dset_ne _ _ _ _ (by decide), dget_dset_eq]
      rfl
  | some v =>
    cases v <;> simp only [processElem, hb] <;>
      refine ⟨dget_dset_eq _ _ _, ?_, ?_⟩ <;>
      first
        | (rw [dget_dset_ne _ _ _ _ (by decide), dget_dset_ne _ _ _ _ (by decide), dget_dset_eq]
           rfl)
        | (rw [dget_dset_ne _ _ _ _ (by decide), dget_dset_eq]
           rfl)

/-! ### Emotion-fold lemmas -/

theorem foldl_upd_ne (l : List Dict) (acc : Val) (h : acc ≠ Val.null) :
    l.foldl updEmotion acc = acc := by
  induction l with
  | nil => rfl
  | cons f fs ih =>
    rw [List.foldl_cons]
    have hstep : updEmotion acc f = acc := by rw [updEmotion, if_neg h]
    rw [hstep, ih]

theorem foldl_upd_eq_first (l : List Dict) :
    l.foldl updEmotion Val.null = firstEmotionVal l := by
  induction l with
  | nil => rfl
  | cons f fs ih =>
    rw [List.foldl_cons]
    cases he : dget f "emotion" with
    | none =>
      have hstep : updEmotion Val.null f = Val.null := by
        rw [updEmotion, if_pos rfl, he]
      rw [hstep, ih, firstEmotionVal, firstEmotionVal, List.filterMap_cons]
      have : emotionValOf f = none := by rw [emotionValOf, he]
      rw [this]
    | some v =>
      have hstep : updEmotion Val.null f = v := by
        rw [updEmotion, if_pos rfl, he]
      rw [hstep]
      by_cases hv : v = Val.null
      · subst hv
        rw [ih, firstEmotionVal, firstEmotionVal, List.filterMap_cons]
        have : emotionValOf f = none := by
          rw [emotionValOf, he]
          rfl
        rw [this]
      · rw [foldl_upd_ne fs v hv, firstEmotionVal, List.filterMap_cons]
        have : emotionValOf f = some v := by
          rw [emotionValOf, he]
          exact if_neg hv
        rw [this]
        rfl

theorem filterMap_ext_mem {α β : Type} (f g : α → Option β) (l : List α)
    (h : ∀ a ∈ l, f a = g a) : l.filterMap f = l.filterMap g := by
  induction l with
  | nil => rfl
  | cons a as ih =>
    rw [List.filterMap_cons, List.filterMap_cons, h a (List.mem_cons_self a as),
      ih (fun x hx => h x (List.mem_cons_of_mem a hx))]

/-- Claim C8 (amended): The `detected_emotion` produced by `run_full_analysis` is
the first present, non-null `emotion` value among the face elements in list
order — including `"neutral"`: the loop does not skip neutral emotions —
and null when no face carries a non-null emotion. -/
theorem detected_emotion_first_nonnull (ext : Ext) (bytes : List ℕ) (ds : List Dict)
    (img : Img) (r : Record)
    (hdec : ext.decode bytes = some img)
    (hrun : run_full_analysis ext bytes ds = some r) :
    r.detected_emotion = firstEmotionVal (categorize ds).2.1 := by
  have hr : r = buildRecord ext img ds := by
    rw [run_full_analysis, hdec] at hrun
    exact (Option.some_injective _ hrun).symm
  subst hr
  show (((categorize ds).2.1).map (processElem img "face")).foldl updEmotion Val.null =
    firstEmotionVal (categorize ds).2.1
  rw [foldl_upd_eq_first, firstEmotionVal, firstEmotionVal, List.filterMap_map]
  rw [filterMap_ext_mem (emotionValOf ∘ processElem img "face") emotionValOf _
    (fun d _ => by
      show emotionValOf (processElem img "face" d) = emotionValOf d
      rw [emotionValOf, emotionValOf,
        dget_processElem_ne img "face" d "emotion" (by decide) (by decide) (by decide)])]

/-- Claim C8 counterexample to the claim as stated: with a `"neutral"` face first
and a `"happy"` face second, the code reports `"neutral"` (the first
non-null emotion), while the claimed rule — skip `"neutral"`, fall back only
if all are neutral — would report `"happy"`. -/
theorem detected_emotion_neutral_sticks :
    (run_full_analysis extTriv [0] dsNeutralHappy).map Record.detected_emotion =
      some (Val.str "neutral") ∧
    spec_detected_emotion (categorize dsNeutralHappy).2.1 = Val.str "happy" ∧
    Val.str "neutral" ≠ Val.str "happy" := by decide

/-- Claim C8 witness: the amended rule instantiated on the same two-face list. -/
theorem detected_emotion_witness :
    (buildRecord extTriv img1 dsNeutralHappy).detected_emotion =
      firstEmotionVal (categorize dsNeutralHappy).2.1 :=
  detected_emotion_first_nonnull extTriv [0] dsNeutralHappy img1
    (buildRecord extTriv img1 dsNeutralHappy) rfl rfl

/-- Claim C9: `run_full_analysis` fails exactly when the bytes do not decode (the
fatal `DecodeError`), producing no record at all; on every successfully
decoded image it returns a complete record — all downstream steps of the
embedding are total, mirroring the source's local defaults
(`0.5`, `"unknown"`, the `"None"` sentinel) and its `try/except` guards. -/
theorem decode_only_fatal (ext : Ext) (bytes : List ℕ) (ds : List Dict) :
    (run_full_analysis ext bytes ds = none ↔ ext.decode bytes = none) ∧
    (∀ img, ext.decode bytes = some img →
      run_full_analysis ext bytes ds = some (buildRecord ext img ds)) := by
  constructor
  · rw [run_full_analysis]
    cases h : ext.decode bytes <;> simp
  · intro img him
    rw [run_full_analysis, him]

/-- Claim C9 witness: a failing decoder yields no record; a succeeding decoder
yields the full record. -/
theorem decode_only_fatal_witness :
    run_full_analysis extNone [0] [] = none ∧
    run_full_analysis extTriv [0] [] = some (buildRecord extTriv img1 []) :=
  ⟨(decode_only_fatal extNone [0] []).1.2 rfl,
   (decode_only_fatal extTriv [0] []).2 img1 rfl⟩

/-- Claim C10 (amended): The elements placed in `detected_faces` /
`detected_objects` are fresh copies: every key other than the three derived
ones (`contrast_score_vs_bg`, `position`, `element_type`) keeps its original
value, the three derived keys are set — overwriting any value the input
already had under those names, which is the only deviation from the claim as
stated — and the input dicts themselves are untouched (the buckets are the
original detections, the processed copies are built with `dset`). -/
theorem elements_preserve_keys (ext : Ext) (bytes : List ℕ) (ds : List Dict)
    (img : Img) (r : Record)
    (hdec : ext.decode bytes = some img)
    (hrun : run_full_analysis ext bytes ds = some r) :
    r.detected_faces = ((categorize ds).2.1).map (processElem img "face") ∧
    r.detected_objects = ((categorize ds).2.2).map (processElem img "object") ∧
    (∀ d : Dict, ∀ k : String,
      k ≠ "contrast_score_vs_bg" → k ≠ "position" → k ≠ "element_type" →
      dget (processElem img "face" d) k = dget d k ∧
      dget (processElem img "object" d) k = dget d k) ∧
    (∀ d : Dict,
      dget (processElem img "face" d) "element_type" = some (Val.str "face") ∧
      dget (processElem img "object" d) "element_type" = some (Val.str "object") ∧
      (dget (processElem img "face" d) "contrast_score_vs_bg").isSome = true ∧
      (dget (processElem img "face" d) "position").isSome = true) := by
  have hr : r = buildRecord ext img ds := by
    rw [run_full_analysis, hdec] at hrun
    exact (Option.some_injective _ hrun).symm
  subst hr
  refine ⟨rfl, rfl, ?_, ?_⟩
  · intro d k h1 h2 h3
    exact ⟨dget_processElem_ne img "face" d k h1 h2 h3,
      dget_processElem_ne img "object" d k h1 h2 h3⟩
  · intro d
    exact ⟨(processElem_derived img "face" d).1, (processElem_derived img "object" d).1,
      (processElem_derived img "face" d).2.1, (processElem_derived img "face" d).2.2⟩

/-- Claim C10 counterexample to the claim as stated: a face detection that
already carries a `position` key has that value overwritten (`"original"`
becomes `"unknown"`), so "any extra keys unchanged" fails for keys named
like the derived fields. -/
theorem extra_position_key_overwritten :
    (run_full_analysis extTriv [0] [dPosClash]).map Record.detected_faces =
      some [processElem img1 "face" dPosClash] ∧
    dget (processElem img1 "face" dPosClash) "position" = some (Val.str "unknown") ∧
    dget dPosClash "position" = some (Val.str "original") ∧
    Val.str "unknown" ≠ Val.str "original" := by decide

/-- Claim C10 witness: key preservation and derived-key attachment on a concrete
face element. -/
theorem elements_preserve_keys_witness :
    (buildRecord extTriv img1 dsNeutralHappy).detected_faces =
      ((categorize dsNeutralHappy).2.1).map (processElem img1 "face") ∧
    dget (processElem img1 "face" dPosClash) "label" = dget dPosClash "label" ∧
    dget (processElem img1 "face" dPosClash) "element_type" = some (Val.str "face") :=
  ⟨(elements_preserve_keys extTriv [0] dsNeutralHappy img1
      (buildRecord extTriv img1 dsNeutralHappy) rfl rfl).1,
   ((elements_preserve_keys extTriv [0] dsNeutralHappy img1
      (buildRecord extTriv img1 dsNeutralHappy) rfl rfl).2.2.1 dPosClash "label"
      (by decide) (by decide) (by decide)).1,
   ((elements_preserve_keys extTriv [0] dsNeutralHappy img1
      (buildRecord extTriv img1 dsNeutralHappy) rfl rfl).2.2.2 dPosClash).1⟩
